import Mathlib

/-!
Shallow embedding of `agent/exec/container/adapter.go` from the swarmkit
repository: the remote container-lifecycle adapter (image pull, network
provisioning, lifecycle calls, event relay, timeout resolution).

Remote collaborators (the engine client and the resolved container
configuration) are modelled as explicit function parameters: each remote
call is a function from its request to an `Except String` result, errors
being their textual messages (the Go code classifies errors purely by
substring matching on `err.Error()`).
-/

/-! ## String containment (Go `strings.Contains`) -/

/-- Whether `pat` occurs at the start of `s` (character lists). -/
def charsStartWith : List Char → List Char → Bool
  | [], _ => true
  | _ :: _, [] => false
  | a :: pa, b :: pb => a == b && charsStartWith pa pb

/-- Whether `pat` occurs as a contiguous run anywhere in `s` (character lists). -/
def charsContain (pat : List Char) : List Char → Bool
  | [] => pat.isEmpty
  | b :: rest => charsStartWith pat (b :: rest) || charsContain pat rest

/-- Go `strings.Contains(s, pat)`. -/
def strContains (s pat : String) : Bool :=
  charsContain pat.data s.data

/-! ## Error classifiers (`isActiveEndpointError`, `isNetworkExistError`) -/

/-- `isActiveEndpointError`: the remove error still names active endpoints.
Source: `strings.Contains(err.Error(), "has active endpoints")`. -/
def isActiveEndpointError (errMsg : String) : Bool :=
  strContains errMsg "has active endpoints"

/-- The exact message pattern `fmt.Sprintf("network with name %s already exists", name)`. -/
def networkExistPattern (name : String) : String :=
  "network with name " ++ name ++ " already exists"

/-- `isNetworkExistError`: the create error says the network already exists.
Source: `strings.Contains(err.Error(), fmt.Sprintf("network with name %s already exists", name))`. -/
def isNetworkExistError (errMsg name : String) : Bool :=
  strContains errMsg (networkExistPattern name)

/-! ## Network provisioning (`createNetworks`, `removeNetworks`) -/

/-- `createNetworks`: for each declared network, build the create options
(`c.container.networkCreateOptions`, modelled by `optsFn`, which may fail) and
issue the remote create (`c.client.NetworkCreate`, modelled by `netCreate`).
A create failure matching `isNetworkExistError` for that network is absorbed
and the loop continues; any other failure (including an options failure) is
returned at once. -/
def createNetworks {ω : Type} (optsFn : String → Except String ω)
    (netCreate : String → ω → Except String Unit) :
    List String → Except String Unit
  | [] => Except.ok ()
  | n :: rest =>
    match optsFn n with
    | Except.error e => Except.error e
    | Except.ok o =>
      match netCreate n o with
      | Except.ok _ => createNetworks optsFn netCreate rest
      | Except.error e =>
        if isNetworkExistError e n then createNetworks optsFn netCreate rest
        else Except.error e

/-- Observable action of the network-remove loop: a remove request issued for a
network id, or the `log.G(ctx).Errorf("network %s remove failed", nid)` call. -/
inductive RAct where
  | attempt (n : String)
  | logFail (n : String)
deriving DecidableEq

/-- `removeNetworks`: for each network id, issue the remote remove
(`c.client.NetworkRemove`, modelled by `netRemove`).  A failure matching
`isActiveEndpointError` is absorbed and the loop continues; any other failure
is logged (`RAct.logFail`) and returned, leaving the rest of the list
unattempted.  The first component records the requests and log calls made, in
order. -/
def removeNetworks (netRemove : String → Except String Unit) :
    List String → List RAct × Except String Unit
  | [] => ([], Except.ok ())
  | n :: rest =>
    match netRemove n with
    | Except.ok _ =>
      let p := removeNetworks netRemove rest
      (RAct.attempt n :: p.1, p.2)
    | Except.error e =>
      if isActiveEndpointError e then
        let p := removeNetworks netRemove rest
        (RAct.attempt n :: p.1, p.2)
      else ([RAct.attempt n, RAct.logFail n], Except.error e)

/-! ## Image pull (`pullImage`)

The Go code decodes each JSON progress record into one map
`m := map[string]interface{}{}` that is reused across iterations:
`encoding/json` decoding into an existing map keeps entries for keys the new
object does not mention and overwrites keys it does.  A record is modelled as
the list of key/value pairs of the JSON object (later duplicates overwrite,
as in `encoding/json`), and the decoder map as `String → Option String`. -/

/-- A decoded pull-progress record: key/value pairs of one JSON object. -/
abbrev Record := List (String × String)

/-- The decoder map `m`. -/
abbrev PullMap := String → Option String

/-- The fresh map `map[string]interface{}{}`. -/
def emptyMap : PullMap := fun _ => none

/-- Store one key/value pair into the map, overwriting the key. -/
def mapInsert (m : PullMap) (k v : String) : PullMap :=
  fun x => if x = k then some v else m x

/-- `dec.Decode(&m)` on a successfully parsed object: merge the record into
the reused map (existing keys not mentioned by the record are kept). -/
def mergeRecord (m : PullMap) (r : Record) : PullMap :=
  r.foldl (fun acc kv => mapInsert acc kv.1 kv.2) m

/-- The effective value a single record gives a key (later duplicates win). -/
def recLookup (r : Record) (k : String) : Option String :=
  mergeRecord emptyMap r k

/-- The decode loop of `pullImage`: each stream element is either a
successfully decoded record or a decode error; the end of the list is
`io.EOF`.  On EOF the accumulated map is checked for an `"error"` key and
`fmt.Errorf("%v", errMsg)` is returned when present; a non-EOF decode error
is returned at once. -/
def pullLoop (m : PullMap) : List (Except String Record) → Except String Unit
  | [] =>
    match m "error" with
    | some v => Except.error v
    | none => Except.ok ()
  | Except.error e :: _ => Except.error e
  | Except.ok r :: rest => pullLoop (mergeRecord m r) rest

/-- `pullImage`: issue `c.client.ImagePull` (modelled by its result
`pullResp`: either an open error or the decoded progress stream), return an
open error at once, otherwise run the decode loop on a fresh map. -/
def pullImage (pullResp : Except String (List (Except String Record))) :
    Except String Unit :=
  match pullResp with
  | Except.error e => Except.error e
  | Except.ok stream => pullLoop emptyMap stream

/-! ## Timeout resolution (`resolveTimeout`)

Times are absolute nanosecond counts (`time.Time` / `time.Duration` hold
integer nanoseconds); `int(left.Seconds())` truncates the positive remaining
duration to whole seconds, i.e. floor division by `10^9`. -/

/-- The caller context, as `resolveTimeout` observes it: an optional absolute
deadline (nanoseconds) and the error `ctx.Err()` reports once cancellation
completes. -/
structure Ctx where
  deadline : Option Int
  cancelErr : String

/-- `resolveTimeout`: default 10 seconds with no deadline; with a deadline,
`left := deadline.Sub(time.Now())`; if `left <= 0` the code blocks on
`<-ctx.Done()` and then returns `ctx.Err()`; otherwise the timeout is
`int(left.Seconds())`. -/
def resolveTimeout (ctx : Ctx) (now : Int) : Except String Int :=
  match ctx.deadline with
  | none => Except.ok 10
  | some d =>
    let left := d - now
    if left ≤ 0 then Except.error ctx.cancelErr
    else Except.ok (left / 1000000000)

/-! ## Event relay (`events`)

The decode goroutine is modelled as the ordered list of its observable
actions.  `cancelledStart` is whether the initial `select { case <-ctx.Done() }`
sees a cancelled context; `ok i` resolves the `select` at the i-th delivery
(`true`: the consumer receives; `false`: the `<-ctx.Done()` branch fires).
The two `defer`s run last-registered-first: `close(closed)` then `rc.Close()`. -/

/-- Observable action of the event goroutine. -/
inductive Act where
  | decode
  | deliver (e : String)
  | closeClosed
  | closeStream
deriving DecidableEq

/-- The decode loop body: decode one framed record (`Act.decode`); EOF or any
other decode error exits the loop; on success, deliver the event unless the
delivery `select` takes the cancellation branch. -/
def taskLoop (ok : Nat → Bool) : List (Except String String) → Nat → List Act
  | [], _ => [Act.decode]
  | Except.error _ :: _, _ => [Act.decode]
  | Except.ok ev :: rest, i =>
    if ok i then Act.decode :: Act.deliver ev :: taskLoop ok rest (i + 1)
    else [Act.decode]

/-- The whole goroutine: the initial cancellation check, then the decode loop,
then the deferred `close(closed)` and `rc.Close()`. -/
def eventsTask (stream : List (Except String String)) (cancelledStart : Bool)
    (ok : Nat → Bool) : List Act :=
  (if cancelledStart then [] else taskLoop ok stream 0) ++
    [Act.closeClosed, Act.closeStream]

/-- What `events` returns to its caller: whether each returned channel is
non-nil, the returned error, and the spawned goroutine trace (none when no
goroutine was started). -/
structure EvRes where
  eventsq : Bool
  closed : Bool
  err : Option String
  task : Option (List Act)
deriving DecidableEq

/-- `events`: open the remote feed (`c.client.Events`, modelled by its result
`openResp`); on failure return `nil, nil, err` with no goroutine; on success
return the two fresh channels and start the goroutine. -/
def eventsCall (openResp : Except String (List (Except String String)))
    (cancelledStart : Bool) (ok : Nat → Bool) : EvRes :=
  match openResp with
  | Except.error e => EvRes.mk false false (some e) none
  | Except.ok stream =>
    EvRes.mk true true none (some (eventsTask stream cancelledStart ok))

/-! ## Container removal (`remove`) -/

/-- `types.ContainerRemoveOptions` as `remove` fills it in. -/
structure ContainerRemoveOptions where
  removeVolumes : Bool
  force : Bool
deriving DecidableEq

/-- `remove`: one call to `c.client.ContainerRemove` with the configured name
and `{RemoveVolumes: true, Force: true}`; the result is returned unmodified.
The first component records every request issued, in order. -/
def remove (name : String)
    (containerRemove : String → ContainerRemoveOptions → Except String Unit) :
    List (String × ContainerRemoveOptions) × Except String Unit :=
  ([(name, ContainerRemoveOptions.mk true true)],
    containerRemove name (ContainerRemoveOptions.mk true true))

/-! ## Helper lemmas -/

/-- Reflexivity of the character-list start check. -/
theorem charsStartWith_refl : ∀ l : List Char, charsStartWith l l = true := by
  intro l
  induction l with
  | nil => rfl
  | cons a rest ih => simp [charsStartWith, ih]

/-- Any character list contains itself. -/
theorem charsContain_refl : ∀ l : List Char, charsContain l l = true := by
  intro l
  cases l with
  | nil => rfl
  | cons a rest => simp [charsContain, charsStartWith_refl]

/-- A string contains itself. -/
theorem strContains_refl (s : String) : strContains s s = true :=
  charsContain_refl s.data

/-- The exact already-exists message for a network is classified as benign. -/
theorem isNetworkExistError_pattern (n : String) :
    isNetworkExistError (networkExistPattern n) n = true :=
  strContains_refl (networkExistPattern n)

/-- Looking up a key after merging a record: the record's effective value for
that key wins, otherwise the old map value shows through. -/
theorem mergeRecord_lookup (k : String) (r : Record) :
    ∀ m : PullMap,
      mergeRecord m r k =
        match recLookup r k with
        | some v => some v
        | none => m k := by
  induction r with
  | nil =>
    intro m
    simp [recLookup, mergeRecord, emptyMap]
  | cons kv rest ih =>
    intro m
    have hrl : recLookup (kv :: rest) k =
        match recLookup rest k with
        | some v => some v
        | none => mapInsert emptyMap kv.1 kv.2 k := by
      show mergeRecord emptyMap (kv :: rest) k = _
      have hstep : mergeRecord emptyMap (kv :: rest) k =
          mergeRecord (mapInsert emptyMap kv.1 kv.2) rest k := rfl
      rw [hstep, ih (mapInsert emptyMap kv.1 kv.2)]
    have hm : mergeRecord m (kv :: rest) k =
        mergeRecord (mapInsert m kv.1 kv.2) rest k := rfl
    rw [hm, ih (mapInsert m kv.1 kv.2), hrl]
    cases h : recLookup rest k with
    | some v => simp
    | none =>
      simp only
      unfold mapInsert emptyMap
      by_cases hk : k = kv.1 <;> simp [hk]

/-- If the record carries the key, merging installs its value. -/
theorem mergeRecord_some (r : Record) (m : PullMap) (k v : String)
    (h : recLookup r k = some v) : mergeRecord m r k = some v := by
  rw [mergeRecord_lookup k r m, h]

/-- If the record does not carry the key, merging leaves the old value. -/
theorem mergeRecord_none (r : Record) (m : PullMap) (k : String)
    (h : recLookup r k = none) : mergeRecord m r k = m k := by
  rw [mergeRecord_lookup k r m, h]

/-- The decode loop over a run of successful records folds them into the map. -/
theorem pullLoop_append_ok :
    ∀ (recs : List Record) (m : PullMap) (rest : List (Except String Record)),
      pullLoop m (recs.map Except.ok ++ rest) =
        pullLoop (recs.foldl mergeRecord m) rest := by
  intro recs
  induction recs with
  | nil => intro m rest; rfl
  | cons r rs ih =>
    intro m rest
    show pullLoop (mergeRecord m r) (rs.map Except.ok ++ rest) = _
    rw [ih (mergeRecord m r) rest]
    rfl

/-- The decode loop at end of stream checks the accumulated map. -/
theorem pullLoop_nil (m : PullMap) :
    pullLoop m [] =
      match m "error" with
      | some v => Except.error v
      | none => Except.ok () := rfl

/-- Folding records none of which carries the key keeps it absent. -/
theorem foldl_merge_none :
    ∀ (recs : List Record) (m : PullMap), m "error" = none →
      (∀ r ∈ recs, recLookup r "error" = none) →
      (recs.foldl mergeRecord m) "error" = none := by
  intro recs
  induction recs with
  | nil => intro m hm _; simpa using hm
  | cons r rs ih =>
    intro m hm h
    have hr : recLookup r "error" = none := h r (by simp)
    have hmr : (mergeRecord m r) "error" = none := by
      rw [mergeRecord_none r m _ hr]; exact hm
    exact ih (mergeRecord m r) hmr (fun r2 hr2 => h r2 (by simp [hr2]))

/-- Members of the decode-loop trace are decode or deliver actions only. -/
theorem taskLoop_mem (ok : Nat → Bool) :
    ∀ (l : List (Except String String)) (i : Nat),
      ∀ a ∈ taskLoop ok l i, a = Act.decode ∨ ∃ e, a = Act.deliver e := by
  intro l
  induction l with
  | nil =>
    intro i a ha
    simp [taskLoop] at ha
    exact Or.inl ha
  | cons hd rest ih =>
    intro i a ha
    cases hd with
    | error e =>
      simp [taskLoop] at ha
      exact Or.inl ha
    | ok ev =>
      simp only [taskLoop] at ha
      by_cases h : ok i
      · simp [h] at ha
        rcases ha with ha | ha | ha
        · exact Or.inl ha
        · exact Or.inr ⟨ev, ha⟩
        · exact ih (i + 1) a ha
      · simp [h] at ha
        exact Or.inl ha

/-! ## Claim theorems -/

/-- Claim C1: for every pull-progress stream, `pullImage` reads records until
exhaustion and then checks for an error field: if the last successfully
decoded record carries an `"error"` field, `pullImage` fails with that field's
value; if no record in the stream carried an `"error"` field, it returns
success; and a decode error other than end-of-stream fails immediately with
that decode error. -/
theorem pullImage_stream_spec :
    (∀ (recs : List Record) (last : Record) (v : String),
        recLookup last "error" = some v →
        pullImage (Except.ok ((recs ++ [last]).map Except.ok)) = Except.error v) ∧
    (∀ recs : List Record,
        (∀ r ∈ recs, recLookup r "error" = none) →
        pullImage (Except.ok (recs.map Except.ok)) = Except.ok ()) ∧
    (∀ (recs : List Record) (e : String) (rest : List (Except String Record)),
        pullImage (Except.ok (recs.map Except.ok ++ Except.error e :: rest)) =
          Except.error e) := by
  refine ⟨?_, ?_, ?_⟩
  · intro recs last v h
    show pullLoop emptyMap ((recs ++ [last]).map Except.ok) = Except.error v
    have e1 := pullLoop_append_ok (recs ++ [last]) emptyMap []
    simp only [List.append_nil] at e1
    rw [e1, pullLoop_nil, List.foldl_append]
    have e2 : List.foldl mergeRecord (List.foldl mergeRecord emptyMap recs) [last] =
        mergeRecord (List.foldl mergeRecord emptyMap recs) last := rfl
    rw [e2, mergeRecord_some last _ _ v h]
  · intro recs h
    show pullLoop emptyMap (recs.map Except.ok) = Except.ok ()
    have e1 := pullLoop_append_ok recs emptyMap []
    simp only [List.append_nil] at e1
    rw [e1, pullLoop_nil, foldl_merge_none recs emptyMap rfl h]
  · intro recs e rest
    show pullLoop emptyMap (recs.map Except.ok ++ Except.error e :: rest) =
      Except.error e
    rw [pullLoop_append_ok]
    rfl

/-- Witness for C1: a stream whose terminal record is
`{"error": "no such image"}` fails with that message; a stream with no error
field succeeds; a malformed frame fails with the decode error. -/
theorem pullImage_stream_spec_witness :
    pullImage (Except.ok (([[("status", "downloading")]] ++
        [[("error", "no such image")]]).map Except.ok)) =
      Except.error "no such image" ∧
    pullImage (Except.ok ([[("status", "done")]].map Except.ok)) =
      Except.ok () ∧
    pullImage (Except.ok ([[("status", "x")]].map Except.ok ++
        Except.error "unexpected end of JSON input" :: [])) =
      Except.error "unexpected end of JSON input" :=
  ⟨pullImage_stream_spec.1 [[("status", "downloading")]]
      [("error", "no such image")] "no such image" rfl,
    pullImage_stream_spec.2.1 [[("status", "done")]] (by decide),
    pullImage_stream_spec.2.2 [[("status", "x")]]
      "unexpected end of JSON input" []⟩

/-- Claim C2: the decoder map is reused and never cleared between records, so
the final error check sees the union of all records' keys: on the stream
`[{"error": "boom"}, {"status": "done"}]` the pull fails with "boom" even
though the last decoded record has no `"error"` field. -/
theorem pullImage_accumulates_error :
    recLookup [("error", "boom")] "error" = some "boom" ∧
    recLookup [("status", "done")] "error" = none ∧
    pullImage (Except.ok [Except.ok [("error", "boom")],
        Except.ok [("status", "done")]]) = Except.error "boom" :=
  ⟨rfl, rfl, rfl⟩

/-- Claim C5: `resolveTimeout` returns the fixed default 10 when the context
has no deadline; with a deadline strictly in the future it returns the
remaining duration floored to whole seconds with no error; with a
non-positive remaining duration it returns the context's cancellation error
(after blocking on `ctx.Done()`), never a silent timeout. -/
theorem resolveTimeout_spec :
    (∀ (ctx : Ctx) (now : Int), ctx.deadline = none →
        resolveTimeout ctx now = Except.ok 10) ∧
    (∀ (ctx : Ctx) (now d : Int), ctx.deadline = some d → 0 < d - now →
        resolveTimeout ctx now = Except.ok ((d - now) / 1000000000)) ∧
    (∀ (ctx : Ctx) (now d : Int), ctx.deadline = some d → d - now ≤ 0 →
        resolveTimeout ctx now = Except.error ctx.cancelErr) := by
  refine ⟨?_, ?_, ?_⟩
  · intro ctx now h
    simp [resolveTimeout, h]
  · intro ctx now d h hpos
    simp only [resolveTimeout, h]
    rw [if_neg (by omega)]
  · intro ctx now d h hle
    simp only [resolveTimeout, h]
    rw [if_pos hle]

/-- Witness for C5: no deadline gives 10; a deadline 2.5e9 ns ahead gives 2;
an elapsed deadline gives the cancellation error. -/
theorem resolveTimeout_spec_witness :
    resolveTimeout (Ctx.mk none "canceled") 0 = Except.ok 10 ∧
    resolveTimeout (Ctx.mk (some 2500000000) "canceled") 0 = Except.ok 2 ∧
    resolveTimeout (Ctx.mk (some 3) "deadline exceeded") 7 =
      Except.error "deadline exceeded" :=
  ⟨resolveTimeout_spec.1 (Ctx.mk none "canceled") 0 rfl,
    by
      have h := resolveTimeout_spec.2.1 (Ctx.mk (some 2500000000) "canceled")
        0 2500000000 rfl (by omega)
      rw [h]
      norm_num,
    resolveTimeout_spec.2.2 (Ctx.mk (some 3) "deadline exceeded") 7 3 rfl
      (by omega)⟩

/-- Claim C9: a deadline strictly in the future but less than one second away
makes `resolveTimeout` return 0 with no error: the remaining duration
truncates to zero whole seconds on the success path. -/
theorem resolveTimeout_subsecond_zero (ctx : Ctx) (now d : Int)
    (h1 : ctx.deadline = some d) (h2 : 0 < d - now)
    (h3 : d - now < 1000000000) :
    resolveTimeout ctx now = Except.ok 0 := by
  simp only [resolveTimeout, h1]
  rw [if_neg (by omega)]
  rw [Int.ediv_eq_zero_of_lt (by omega) h3]

/-- Witness for C9: a deadline 999 ns in the future yields a zero timeout. -/
theorem resolveTimeout_subsecond_zero_witness :
    resolveTimeout (Ctx.mk (some 999) "canceled") 0 = Except.ok 0 :=
  resolveTimeout_subsecond_zero (Ctx.mk (some 999) "canceled") 0 999 rfl
    (by omega) (by omega)

/-- Claim C3: if a first `createNetworks` pass succeeded and the remote then
answers every duplicate create for a declared network with an error message
of the form `network with name <name> already exists`, a second pass over the
same networks never fails: the benign errors are absorbed and the loop
continues. -/
theorem createNetworks_idempotent {ω : Type} (optsFn : String → Except String ω)
    (c1 c2 : String → ω → Except String Unit) :
    ∀ networks : List String,
      createNetworks optsFn c1 networks = Except.ok () →
      (∀ n ∈ networks, ∀ o : ω, c2 n o = Except.error (networkExistPattern n)) →
      createNetworks optsFn c2 networks = Except.ok () := by
  intro networks
  induction networks with
  | nil => intro _ _; rfl
  | cons n rest ih =>
    intro h1 h2
    cases hopt : optsFn n with
    | error e =>
      simp only [createNetworks, hopt] at h1
      exact absurd h1 (by simp)
    | ok o =>
      have hrest1 : createNetworks optsFn c1 rest = Except.ok () := by
        simp only [createNetworks, hopt] at h1
        cases hc : c1 n o with
        | ok u => simp only [hc] at h1; exact h1
        | error e =>
          simp only [hc] at h1
          by_cases hb : isNetworkExistError e n = true
          · rw [if_pos hb] at h1; exact h1
          · rw [if_neg hb] at h1; exact absurd h1 (by simp)
      have h2n : c2 n o = Except.error (networkExistPattern n) := h2 n (by simp) o
      simp only [createNetworks, hopt, h2n, isNetworkExistError_pattern, if_true]
      exact ih hrest1 (fun m hm o2 => h2 m (by simp [hm]) o2)

/-- Witness for C3: two networks, a first pass in which both creates succeed,
then a second pass in which the remote answers both with the already-exists
message; the second pass still succeeds. -/
theorem createNetworks_idempotent_witness :
    createNetworks (fun _ => Except.ok ()) (fun _ (_ : Unit) => Except.ok ())
      ["netA", "netB"] = Except.ok () ∧
    createNetworks (fun _ => Except.ok ())
      (fun n (_ : Unit) => Except.error (networkExistPattern n))
      ["netA", "netB"] = Except.ok () :=
  ⟨rfl,
    createNetworks_idempotent (fun _ => Except.ok ())
      (fun _ (_ : Unit) => Except.ok ())
      (fun n (_ : Unit) => Except.error (networkExistPattern n))
      ["netA", "netB"] rfl (fun _ _ _ => rfl)⟩

/-- A remote in which removing `n1` reports active endpoints and every other
remove succeeds. -/
def rmRespBenign : String → Except String Unit := fun n =>
  if n = "n1" then Except.error "network n1 has active endpoints"
  else Except.ok ()

/-- Whether a trace entry is the remove-failed log call. -/
def isLogAct : RAct → Bool
  | RAct.logFail _ => true
  | RAct.attempt _ => false

/-- Counterexample to C4 as stated: on an active-endpoints failure the code
continues WITHOUT logging — the log call sits on the fatal branch.  Removing
`["n1", "n2"]` where `n1` fails benignly attempts both networks, succeeds,
and emits no log action, contradicting the claim that the benign condition is
logged. -/
theorem removeNetworks_benign_not_logged :
    rmRespBenign "n1" = Except.error "network n1 has active endpoints" ∧
    isActiveEndpointError "network n1 has active endpoints" = true ∧
    removeNetworks rmRespBenign ["n1", "n2"] =
      ([RAct.attempt "n1", RAct.attempt "n2"], Except.ok ()) ∧
    ((removeNetworks rmRespBenign ["n1", "n2"]).1.all
      fun a => !isLogAct a) = true :=
  ⟨rfl, by decide, rfl, rfl⟩

/-- Claim C4 as amended: `removeNetworks` treats a remove failure whose
message contains "has active endpoints" as success for that network and
continues through all remaining networks without logging it; a failure not
matching that condition is logged, aborts the loop and is returned, leaving
the remaining networks unattempted. -/
theorem removeNetworks_classification :
    (∀ (netRemove : String → Except String Unit) (nids : List String),
        (∀ n ∈ nids, netRemove n = Except.ok () ∨
          ∃ e, netRemove n = Except.error e ∧ isActiveEndpointError e = true) →
        removeNetworks netRemove nids = (nids.map RAct.attempt, Except.ok ())) ∧
    (∀ (netRemove : String → Except String Unit) (pre : List String)
        (bad : String) (post : List String) (e : String),
        (∀ n ∈ pre, netRemove n = Except.ok () ∨
          ∃ e2, netRemove n = Except.error e2 ∧ isActiveEndpointError e2 = true) →
        netRemove bad = Except.error e → isActiveEndpointError e = false →
        removeNetworks netRemove (pre ++ bad :: post) =
          (pre.map RAct.attempt ++ [RAct.attempt bad, RAct.logFail bad],
            Except.error e)) := by
  constructor
  · intro netRemove nids
    induction nids with
    | nil => intro _; rfl
    | cons n rest ih =>
      intro h
      have hrest := ih (fun m hm => h m (by simp [hm]))
      rcases h n (by simp) with hok | ⟨e, he, hbe⟩
      · simp [removeNetworks, hok, hrest]
      · simp [removeNetworks, he, hbe, hrest]
  · intro netRemove pre bad post e
    induction pre with
    | nil =>
      intro _ hbad hnb
      simp [removeNetworks, hbad, hnb]
    | cons n rest ih =>
      intro h hbad hnb
      have hrest := ih (fun m hm => h m (by simp [hm])) hbad hnb
      rcases h n (by simp) with hok | ⟨e2, he2, hbe2⟩
      · simp [removeNetworks, hok, hrest]
      · simp [removeNetworks, he2, hbe2, hrest]

/-- Witness for the amended C4: the benign run attempts both networks and
succeeds; a run whose first remove fails non-benignly attempts only that
network, logs, and surfaces the error. -/
theorem removeNetworks_classification_witness :
    removeNetworks rmRespBenign ["n1", "n2"] =
      (["n1", "n2"].map RAct.attempt, Except.ok ()) ∧
    removeNetworks (fun _ => Except.error "boom") ["x", "y"] =
      ([RAct.attempt "x", RAct.logFail "x"], Except.error "boom") :=
  ⟨removeNetworks_classification.1 rmRespBenign ["n1", "n2"]
      (by
        intro n hn
        simp at hn
        rcases hn with h | h <;> subst h
        · exact Or.inr ⟨"network n1 has active endpoints", rfl, by decide⟩
        · exact Or.inl rfl),
    removeNetworks_classification.2 (fun _ => Except.error "boom") [] "x"
      ["y"] "boom" (by simp) rfl (by decide)⟩

/-- Claim C6: on every exit of the event-relay decode task — end-of-stream,
any other decode error, or cancellation observed at start or during delivery —
the trace ends with the deferred `close(closed)` and stream close, each
occurring exactly once, after every decode and deliver action; they never
occur earlier and are never missing. -/
theorem events_cleanup (stream : List (Except String String)) (cs : Bool)
    (ok : Nat → Bool) :
    ∃ front : List Act,
      eventsTask stream cs ok = front ++ [Act.closeClosed, Act.closeStream] ∧
      (∀ a ∈ front, a = Act.decode ∨ ∃ e, a = Act.deliver e) ∧
      Act.closeClosed ∉ front ∧ Act.closeStream ∉ front := by
  cases cs with
  | true =>
    refine ⟨[], rfl, ?_, ?_, ?_⟩ <;> simp
  | false =>
    refine ⟨taskLoop ok stream 0, rfl, taskLoop_mem ok stream 0, ?_, ?_⟩
    · intro hmem
      rcases taskLoop_mem ok stream 0 _ hmem with h | ⟨e, h⟩ <;> simp at h
    · intro hmem
      rcases taskLoop_mem ok stream 0 _ hmem with h | ⟨e, h⟩ <;> simp at h

/-- Claim C7: if the context is already cancelled before the decode task
starts, the task exits with no decode attempt and no delivered record, and
the closed-signal channel is still closed. -/
theorem events_cancelled_before_start (stream : List (Except String String))
    (ok : Nat → Bool) :
    eventsTask stream true ok = [Act.closeClosed, Act.closeStream] ∧
    Act.decode ∉ eventsTask stream true ok ∧
    ∀ e, Act.deliver e ∉ eventsTask stream true ok := by
  refine ⟨rfl, ?_, ?_⟩
  · simp [eventsTask]
  · intro e
    simp [eventsTask]

/-- Claim C8: `remove` issues exactly one remote container-remove request, for
the configured name with forced removal and volume removal both enabled, and
returns the remote's answer unmodified. -/
theorem remove_forced_with_volumes (name : String)
    (containerRemove : String → ContainerRemoveOptions → Except String Unit) :
    remove name containerRemove =
      ([(name, ContainerRemoveOptions.mk true true)],
        containerRemove name (ContainerRemoveOptions.mk true true)) := rfl

/-- Claim C10: when opening the remote event feed fails, `events` returns that
error with both channels nil and no decode task; when it succeeds, both
channels are non-nil, the error is nil and the task is started — so the
channels are non-nil exactly when the returned error is nil. -/
theorem events_open_failure (openResp : Except String (List (Except String String)))
    (cs : Bool) (ok : Nat → Bool) :
    (∃ e, openResp = Except.error e ∧
        eventsCall openResp cs ok = EvRes.mk false false (some e) none) ∨
    (∃ s, openResp = Except.ok s ∧
        eventsCall openResp cs ok =
          EvRes.mk true true none (some (eventsTask s cs ok))) := by
  cases openResp with
  | error e => exact Or.inl ⟨e, rfl, rfl⟩
  | ok s => exact Or.inr ⟨s, rfl, rfl⟩
